import Mathlib

/- Verification development for the raster-sampling core of TTools
   (Step5_Sample_Landcover_PointMethod_Array.py).  The Python functions are
   shallowly embedded: coordinates range over an arbitrary commutative ring so
   that the trigonometric routines of the float math library can be supplied as
   parameters; the executable instance uses rationals, and the real-number
   instance is used for the exact trigonometric statements. -/

/-- Record for one generated landcover sample row.  The source stores each
sample as the list [X, Y, X, Y, streamID, nodeID, azimuth, transect, zone]
(the coordinate pair is duplicated for the shape and the attribute columns);
the duplication is collapsed here. -/
structure SampleRow (α : Type) where
  x : α
  y : α
  streamID : ℤ
  nodeID : ℤ
  azimuth : ℚ
  transect : ℕ
  zone : ℕ
deriving DecidableEq, Repr

/-- Record for one input node as read from the nodes feature class: node key,
planar coordinates POINT_X / POINT_Y and STREAM_KM. -/
structure NodeRec (α : Type) where
  nodeID : ℤ
  px : α
  py : α
  km : ℚ
deriving DecidableEq, Repr

/-- Sample rows generated for a single node inside CreateLCPointList
(source lines 258 to 269 and the identical lines 273 to 283): first the
emergent row at the node coordinates with azimuth 0, transect 0 and zone 0,
then for each direction index d and each zone value z the row at coordinates
(z * transsample_distance * con_from_m * sin(radians(dir[d])) + origin_x,
 z * transsample_distance * con_from_m * cos(radians(dir[d])) + origin_y)
with azimuth dir[d], transect d+1 and zone z.  The parameters sinD and cosD
stand for the composite float routines sin(radians(.)) and cos(radians(.)).
The emergent row is emitted unconditionally: the StreamSample flag is not
consulted anywhere in CreateLCPointList. -/
def samplesForNode (α : Type) [CommRing α] (sinD cosD : ℚ → α)
    (dirs : List ℚ) (zones : List ℕ) (dist con : α) (streamID : ℤ)
    (n : NodeRec α) : List (SampleRow α) :=
  { x := n.px, y := n.py, streamID := streamID, nodeID := n.nodeID,
    azimuth := 0, transect := 0, zone := 0 } ::
  (List.range dirs.length).flatMap (fun d =>
    zones.map (fun (z : ℕ) =>
      { x := ↑z * dist * con * sinD (dirs.getD d 0) + n.px,
        y := ↑z * dist * con * cosD (dirs.getD d 0) + n.py,
        streamID := streamID, nodeID := n.nodeID,
        azimuth := dirs.getD d 0, transect := d + 1, zone := z }))

/-- Direction azimuth list chosen in the main program (source lines 383 to
386): the seven fixed compass bearings when heatsource8 is set, otherwise
trans_count evenly spaced azimuths x * 360 / trans_count for x in
1..trans_count. -/
def mainDirs (heatsource8 : Bool) (transCount : ℕ) : List ℚ :=
  if heatsource8 then [45, 90, 135, 180, 225, 270, 315]
  else (List.range transCount).map (fun (x : ℕ) => (↑x + 1) * 360 / (transCount : ℚ))

/-- Zone value list zone = range(1, transsample_count + 1) from source
line 388. -/
def zonesList (transsampleCount : ℕ) : List ℕ :=
  (List.range transsampleCount).map (fun z => z + 1)

/-- Boolean test identifying the emergent sample row (transect 0, zone 0). -/
def isEmergent {α : Type} (r : SampleRow α) : Bool :=
  r.transect == 0 && r.zone == 0

/-- Direction labels used by SetupLCDataHeaders (source lines 208 to 211):
seven fixed compass names in heatsource8 mode, otherwise the labels
T1 .. T(trans_count). -/
def dirLabels (heatsource8 : Bool) (transCount : ℕ) : List String :=
  if heatsource8 then ["NE", "E", "SE", "S", "SW", "W", "NW"]
  else (List.range transCount).map (fun x => "T" ++ toString (x + 1))

/-- Raster role prefixes selected by CanopyDataType inside SetupLCDataHeaders
(source lines 195 to 205).  The source sets the variable in three independent
if statements; an unrecognized data type leaves it unset and the program
fails, modelled here as none. -/
def lcTypes (canopyDataType : String) : Option (List String) :=
  if canopyDataType = "Codes" then some ["LC", "ELE"]
  else if canopyDataType = "LAI" then some ["HT", "ELE", "LAI", "k", "OH"]
  else if canopyDataType = "CanopyCover" then some ["HT", "ELE", "CAN", "OH"]
  else none

/-- Header list construction of SetupLCDataHeaders (source lines 215 to 224):
iterate role prefix, then direction position d, then zone position z; when
StreamSample is set and the role is not ELE the emergent header t_T0_S0 is
inserted once, just before the entry for the first direction and first
zone. -/
def lcHeaders (types : List String) (dirL : List String) (zoneL : List ℕ)
    (streamSample : Bool) : List String :=
  types.flatMap (fun t =>
    (List.range dirL.length).flatMap (fun d =>
      (List.range zoneL.length).flatMap (fun z =>
        if streamSample = true ∧ t ≠ "ELE" ∧ d = 0 ∧ z = 0 then
          [t ++ "_T0_S0",
           t ++ "_" ++ dirL.getD d "" ++ "_S" ++ toString (zoneL.getD z 0)]
        else
          [t ++ "_" ++ dirL.getD d "" ++ "_S" ++ toString (zoneL.getD z 0)])))

/-- Combination of the role selection and the header construction, as
performed by SetupLCDataHeaders (source lines 192 to 226). -/
def SetupLCDataHeaders (transsampleCount transCount : ℕ)
    (canopyDataType : String) (streamSample heatsource8 : Bool) :
    Option (List String) :=
  (lcTypes canopyDataType).map (fun types =>
    lcHeaders types (dirLabels heatsource8 transCount)
      (zonesList transsampleCount) streamSample)

/-- Field keys assigned by the aggregation loop of the main program (source
lines 418 to 421): for every sample row and every raster role prefix the key
is type[t] + "_T" + str(row[7]) + "_S" + str(row[8]), where row[7] is the
transect number of the row and row[8] its zone number. -/
def aggKeys {α : Type} (types : List String) (rows : List (SampleRow α)) :
    List String :=
  rows.flatMap (fun r =>
    types.map (fun t =>
      t ++ "_T" ++ toString r.transect ++ "_S" ++ toString r.zone))

/-- Kilometer checkpoints built in CreateLCPointList (source line 247):
km_blocks = range(10, 6700, 10), the list of integers 10, 20, .., 6690,
compared against the float stream kilometer values. -/
def kmBlocks : List ℚ :=
  (List.range 669).map (fun (k : ℕ) => ((10 * (k + 1) : ℕ) : ℚ))

/-- Node loop of CreateLCPointList (source lines 253 to 285).  The
accumulator acc holds the closed blocks, cur the block under construction and
i the checkpoint index.  While a node is below the current checkpoint its
samples extend the current block; otherwise the current block is closed, a
new block is started with the samples of this node, and the checkpoint index
advances by one.  Reading km_blocks[i] past the end of the checkpoint list is
an IndexError in Python, modelled as none.  After the last node the current
block is always flushed. -/
def LCloop {α : Type} (sfn : NodeRec α → List (SampleRow α)) :
    List (NodeRec α) → List (List (SampleRow α)) → List (SampleRow α) → ℕ →
    Option (List (List (SampleRow α)))
  | [], acc, cur, _ => some (acc ++ [cur])
  | node :: rest, acc, cur, i =>
    match kmBlocks.get? i with
    | none => none
    | some kb =>
      if node.km < kb then LCloop sfn rest acc (cur ++ sfn node) i
      else LCloop sfn rest (acc ++ [cur]) (sfn node) (i + 1)

/-- Block-partitioned sample generation CreateLCPointList (source lines 235
to 286), for one stream whose nodes are given in ascending key order. -/
def CreateLCPointList (α : Type) [CommRing α] (sinD cosD : ℚ → α)
    (nodes : List (NodeRec α)) (streamID : ℤ) (dirs : List ℚ)
    (zones : List ℕ) (dist con : α) : Option (List (List (SampleRow α))) :=
  LCloop (samplesForNode α sinD cosD dirs zones dist con streamID) nodes [] [] 0

/-- Minimum of a coordinate list, as the Python builtin min computes it on a
nonempty list (the empty case never occurs in SampleRaster and defaults
to 0 here). -/
def listMin : List ℚ → ℚ
  | [] => 0
  | a :: t => t.foldl min a

/-- Maximum of a coordinate list, as the Python builtin max computes it on a
nonempty list (the empty case defaults to 0 here). -/
def listMax : List ℚ → ℚ
  | [] => 0
  | a :: t => t.foldl max a

/-- Upper-left bounding box record bbox_upper_left = [Xmin, Ymax, cellsizeX,
cellsizeY] built in SampleRaster (source line 306). -/
structure BBoxUL where
  xmin : ℚ
  ymax : ℚ
  cellsizeX : ℚ
  cellsizeY : ℚ
deriving DecidableEq, Repr

/-- CoordToArray (source lines 228 to 233): fractional column and row of a
world coordinate relative to the upper-left corner of the window. -/
def CoordToArray (easting northing : ℚ) (b : BBoxUL) : ℚ × ℚ :=
  ((easting - b.xmin) / b.cellsizeX, (b.ymax - northing) / b.cellsizeY)

/-- Truncation toward zero of a fractional array index, the conversion the
numpy releases targeted by this script apply to a non-integral float index
(C long conversion, like int()). -/
def npTrunc (q : ℚ) : ℤ :=
  q.num.tdiv q.den

/-- Array position read by SampleRaster for one sample (source lines 324 to
326): arry[xy[1], xy[0]], so the row is the truncated second CoordToArray
component and the column the truncated first component. -/
def sampleIndex (easting northing : ℚ) (b : BBoxUL) : ℤ × ℤ :=
  (npTrunc (CoordToArray easting northing b).2,
   npTrunc (CoordToArray easting northing b).1)

/-- Upper-left bounding box of one block as SampleRaster derives it (source
lines 294 to 306): minimum easting and maximum northing over the block
samples, widened by the buffer cellsizeX * 0. -/
def bboxUpperLeft (block : List (SampleRow ℚ)) (cellsizeX cellsizeY : ℚ) :
    BBoxUL :=
  { xmin := listMin (block.map (fun r => r.x)) - cellsizeX * 0,
    ymax := listMax (block.map (fun r => r.y)) + cellsizeX * 0,
    cellsizeX := cellsizeX, cellsizeY := cellsizeY }

/-- Window request parameters computed by SampleRaster (source lines 294 to
307): lower-left corner, fractional column and row counts (no ceiling is
applied in the source), and the nodata replacement value -9999 / con_z_to_m,
which uses the global elevation conversion factor for every raster. -/
structure WindowReq where
  llxmin : ℚ
  llymin : ℚ
  ncols : ℚ
  nrows : ℚ
  nodataToValue : ℚ
deriving DecidableEq, Repr

/-- Computation of the window request in SampleRaster (source lines 294 to
307). -/
def windowRequest (block : List (SampleRow ℚ)) (cellsizeX cellsizeY conZtoM : ℚ) :
    WindowReq :=
  { llxmin := listMin (block.map (fun r => r.x)) - cellsizeX * 0,
    llymin := listMin (block.map (fun r => r.y)) - cellsizeX * 0,
    ncols := (listMax (block.map (fun r => r.x)) + cellsizeX * 0 -
        (listMin (block.map (fun r => r.x)) - cellsizeX * 0)) / cellsizeX + 1,
    nrows := ((listMax (block.map (fun r => r.y)) + cellsizeX * 0) -
        (listMin (block.map (fun r => r.y)) - cellsizeX * 0)) / cellsizeY + 1,
    nodataToValue := -9999 / conZtoM }

/-- Value stored in the materialized window for one raster cell: the nodata
replacement value -9999 / con_z_to_m for a nodata cell (source lines 307 and
311), the stored cell value otherwise. -/
def materializeCell (conZtoM : ℚ) (cell : Option ℚ) : ℚ :=
  match cell with
  | none => -9999 / conZtoM
  | some v => v

/-- Cell value after the whole-array unit conversion arry = arry * con of
source line 321. -/
def convertedCell (conZtoM con : ℚ) (cell : Option ℚ) : ℚ :=
  materializeCell conZtoM cell * con

/-- Conversion factor chosen per raster in the main loop (source lines 407
to 411): con_z_to_m for the raster equal to EleRaster and 1.0 for every
other raster. -/
def rasterCon (raster eleRaster : String) (conZtoM : ℚ) : ℚ :=
  if raster = eleRaster then conZtoM else 1

/-- Value view of SampleRaster (source lines 288 to 327): the block bounding
box determines the window, the raster store is abstracted as a function raw
giving the stored cell value at a (row, column) position (none for a nodata
cell), and every sample row is paired with the converted cell value read at
its array position. -/
def SampleRaster (block : List (SampleRow ℚ))
    (cellsizeX cellsizeY conZtoM con : ℚ) (raw : ℤ × ℤ → Option ℚ) :
    List (SampleRow ℚ × ℚ) :=
  block.map (fun r =>
    (r, convertedCell conZtoM con
      (raw (sampleIndex r.x r.y (bboxUpperLeft block cellsizeX cellsizeY)))))

/-- Outcome of the elevation unit selection in the main program. -/
inductive EleCon where
  | factor (q : ℚ)
  | exitOther
  | unset
deriving DecidableEq, Repr

/-- Elevation unit conversion of the main program (source lines 376 to 381):
three independent equality tests on the unit name.  Meters gives factor 1,
Feet gives factor 0.3048, the literal value Other raises an explicit
sys.exit asking for meters or feet (exitOther), and every other value
matches no branch, leaving con_z_to_m undefined so the run only fails later
with a NameError during sampling (unset). -/
def conZtoM (eleUnits : String) : EleCon :=
  if eleUnits = "Meters" then .factor 1
  else if eleUnits = "Feet" then .factor (0.3048 : ℚ)
  else if eleUnits = "Other" then .exitOther
  else .unset

/-- Record for one row read by ReadNodesFC: identity fields plus the stored
value of the last generated schema field (none models a stored null; the
value is only meaningful when that field exists in the feature class). -/
structure NodeRow where
  streamID : ℤ
  nodeID : ℤ
  streamKM : ℚ
  px : ℚ
  py : ℚ
  lastFieldValue : Option ℚ
deriving DecidableEq, Repr

/-- ReadNodesFC (source lines 128 to 165): when overwriting is disabled and
the last generated field name already exists in the feature class, only rows
whose stored value for that field is null or equal to 0 are kept; otherwise
overwriting is silently re-enabled and every row is kept.  An empty result
makes the program exit with a nothing-to-process message, modelled as
none. -/
def ReadNodesFC (rows : List NodeRow) (overwriteData : Bool)
    (addFields existingFields : List String) : Option (List NodeRow) :=
  let ow := if overwriteData = false ∧ addFields.getLastD "" ∈ existingFields
    then false else true
  let kept := if ow = true then rows
    else rows.filter (fun r =>
      r.lastFieldValue == none || r.lastFieldValue == some 0)
  if kept.isEmpty then none else some kept

/-- Concrete sample row at (1, 5) used by witnesses. -/
def rowA : SampleRow ℚ := ⟨1, 5, 0, 0, 0, 0, 0⟩

/-- Concrete sample row at (4, 2) used by witnesses. -/
def rowB : SampleRow ℚ := ⟨4, 2, 0, 0, 0, 1, 1⟩

/-- Concrete sample row at the origin used by witnesses. -/
def rowO : SampleRow ℚ := ⟨0, 0, 0, 0, 0, 0, 0⟩

/-- Concrete sample row at (1, 0) used by witnesses. -/
def rowX : SampleRow ℚ := ⟨1, 0, 0, 0, 0, 1, 1⟩

/-- Concrete node row storing a null in the last schema field. -/
def nrowNull : NodeRow := ⟨1, 1, 1, 0, 0, none⟩

/-- Concrete node row storing 0 in the last schema field. -/
def nrowZero : NodeRow := ⟨1, 2, 2, 0, 0, some 0⟩

/-- Concrete node row storing 7 in the last schema field. -/
def nrowSeven : NodeRow := ⟨1, 3, 3, 0, 0, some 7⟩

lemma sum_map_const_nat {β : Type} (l : List β) (c : ℕ) :
    (l.map (fun _ => c)).sum = l.length * c := by
  induction l with
  | nil => simp
  | cons a t ih => simp [ih, Nat.succ_mul, Nat.add_comm]

lemma length_samplesForNode (α : Type) [CommRing α] (sinD cosD : ℚ → α)
    (dirs : List ℚ) (zones : List ℕ) (dist con : α) (sid : ℤ) (n : NodeRec α) :
    (samplesForNode α sinD cosD dirs zones dist con sid n).length =
      1 + dirs.length * zones.length := by
  simp [samplesForNode, List.length_flatMap, Function.comp_def,
    sum_map_const_nat, Nat.add_comm]

lemma not_emergent_of_mem_transect (α : Type) [CommRing α] (sinD cosD : ℚ → α)
    (dirs : List ℚ) (zones : List ℕ) (dist con : α) (sid : ℤ) (n : NodeRec α)
    (r : SampleRow α)
    (hr : r ∈ (List.range dirs.length).flatMap (fun d =>
      zones.map (fun (z : ℕ) =>
        ({ x := ↑z * dist * con * sinD (dirs.getD d 0) + n.px,
           y := ↑z * dist * con * cosD (dirs.getD d 0) + n.py,
           streamID := sid, nodeID := n.nodeID,
           azimuth := dirs.getD d 0, transect := d + 1,
           zone := z } : SampleRow α)))) :
    isEmergent r = false := by
  obtain ⟨d, _, hr⟩ := List.mem_flatMap.mp hr
  obtain ⟨z, _, rfl⟩ := List.mem_map.mp hr
  simp [isEmergent]

lemma filter_emergent_samplesForNode (α : Type) [CommRing α] (sinD cosD : ℚ → α)
    (dirs : List ℚ) (zones : List ℕ) (dist con : α) (sid : ℤ) (n : NodeRec α) :
    (samplesForNode α sinD cosD dirs zones dist con sid n).filter isEmergent =
      [{ x := n.px, y := n.py, streamID := sid, nodeID := n.nodeID,
         azimuth := 0, transect := 0, zone := 0 }] := by
  rw [samplesForNode, List.filter_cons_of_pos (by rfl)]
  rw [List.filter_eq_nil_iff.mpr]
  intro r hr
  simp [not_emergent_of_mem_transect α sinD cosD dirs zones dist con sid n r hr]

lemma filter_not_emergent_samplesForNode (α : Type) [CommRing α]
    (sinD cosD : ℚ → α) (dirs : List ℚ) (zones : List ℕ) (dist con : α)
    (sid : ℤ) (n : NodeRec α) :
    ((samplesForNode α sinD cosD dirs zones dist con sid n).filter
        (fun r => ! isEmergent r)).length = dirs.length * zones.length := by
  rw [samplesForNode, List.filter_cons_of_neg (by simp [isEmergent])]
  rw [List.filter_eq_self.mpr]
  · simp [List.length_flatMap, Function.comp_def, sum_map_const_nat]
  · intro r hr
    simp [not_emergent_of_mem_transect α sinD cosD dirs zones dist con sid n r hr]

/-- C2 counterexample: the claim that the emergent SamplePoint is generated if
and only if include_stream_sample is true, and that a node always yields
transect_count * zone_count non-emergent points, is false.  Concrete input:
heatsource8 (legacy) mode with transect_count 1, zone_count 1, and
include_stream_sample false; the generator still emits exactly one emergent
row, and emits 7 non-emergent rows rather than 1 * 1 = 1 (the direction list
of legacy mode has 7 entries regardless of transect_count). -/
theorem C2_counterexample :
    ((samplesForNode ℚ (fun _ => 0) (fun _ => 0) (mainDirs true 1)
        (zonesList 1) 8 1 0 ⟨1, 0, 0, 1⟩).filter isEmergent).length = 1 ∧
    ((samplesForNode ℚ (fun _ => 0) (fun _ => 0) (mainDirs true 1)
        (zonesList 1) 8 1 0 ⟨1, 0, 0, 1⟩).filter
        (fun r => ! isEmergent r)).length = 7 ∧
    (1 : ℕ) ≠ 0 ∧ (7 : ℕ) ≠ 1 * 1 := by
  refine ⟨by decide, by decide, by decide, by decide⟩

/-- C2 (amended): for every node the Sample Geometry Generator emits exactly
(length of direction list) * (number of zones) non-emergent SamplePoints —
which equals transect_count * zone_count in the evenly spaced mode and
7 * zone_count in legacy (heatsource8) mode — and it always emits exactly one
additional emergent SamplePoint (azimuth 0, transect 0, zone 0, at the node
coordinates), unconditionally: include_stream_sample is not consulted by the
generator. -/
theorem C2_sample_counts (α : Type) [CommRing α] (sinD cosD : ℚ → α)
    (dirs : List ℚ) (zones : List ℕ) (dist con : α) (sid : ℤ) (n : NodeRec α)
    (tc : ℕ) :
    (samplesForNode α sinD cosD dirs zones dist con sid n).length =
      1 + dirs.length * zones.length ∧
    ((samplesForNode α sinD cosD dirs zones dist con sid n).filter
        isEmergent) =
      [{ x := n.px, y := n.py, streamID := sid, nodeID := n.nodeID,
         azimuth := 0, transect := 0, zone := 0 }] ∧
    ((samplesForNode α sinD cosD dirs zones dist con sid n).filter
        (fun r => ! isEmergent r)).length = dirs.length * zones.length ∧
    (mainDirs false tc).length = tc ∧
    (mainDirs true tc).length = 7 ∧
    (zonesList tc).length = tc := by
  refine ⟨length_samplesForNode α sinD cosD dirs zones dist con sid n,
    filter_emergent_samplesForNode α sinD cosD dirs zones dist con sid n,
    filter_not_emergent_samplesForNode α sinD cosD dirs zones dist con sid n,
    by simp [mainDirs], by simp [mainDirs], by simp [zonesList]⟩

/-- C5: for every node (x, y), every azimuth in the direction list and every
zone z the generated coordinate is
(x + z * spacing * unit_factor * sin(radians(azimuth)),
 y + z * spacing * unit_factor * cos(radians(azimuth))); in particular with
unit factor 1 and spacing s azimuth 90 at zone 1 yields (x + s, y) and
azimuth 0 yields (x, y + s), exactly over the reals. -/
theorem C5_sample_geometry (x y s : ℝ) (sid nid : ℤ) (km : ℚ) :
    (∀ (dirs : List ℚ) (zones : List ℕ) (dist u : ℝ),
      samplesForNode ℝ (fun a => Real.sin ((a : ℝ) * Real.pi / 180))
          (fun a => Real.cos ((a : ℝ) * Real.pi / 180)) dirs zones dist u sid
          ⟨nid, x, y, km⟩ =
        { x := x, y := y, streamID := sid, nodeID := nid,
          azimuth := 0, transect := 0, zone := 0 } ::
        (List.range dirs.length).flatMap (fun d =>
          zones.map (fun (z : ℕ) =>
            { x := x + ↑z * dist * u *
                Real.sin (((dirs.getD d 0 : ℚ) : ℝ) * Real.pi / 180),
              y := y + ↑z * dist * u *
                Real.cos (((dirs.getD d 0 : ℚ) : ℝ) * Real.pi / 180),
              streamID := sid, nodeID := nid,
              azimuth := dirs.getD d 0, transect := d + 1, zone := z }))) ∧
    samplesForNode ℝ (fun a => Real.sin ((a : ℝ) * Real.pi / 180))
        (fun a => Real.cos ((a : ℝ) * Real.pi / 180)) [90] [1] s 1 sid
        ⟨nid, x, y, km⟩ =
      [{ x := x, y := y, streamID := sid, nodeID := nid,
         azimuth := 0, transect := 0, zone := 0 },
       { x := x + s, y := y, streamID := sid, nodeID := nid,
         azimuth := 90, transect := 1, zone := 1 }] ∧
    samplesForNode ℝ (fun a => Real.sin ((a : ℝ) * Real.pi / 180))
        (fun a => Real.cos ((a : ℝ) * Real.pi / 180)) [0] [1] s 1 sid
        ⟨nid, x, y, km⟩ =
      [{ x := x, y := y, streamID := sid, nodeID := nid,
         azimuth := 0, transect := 0, zone := 0 },
       { x := x, y := y + s, streamID := sid, nodeID := nid,
         azimuth := 0, transect := 1, zone := 1 }] := by
  have hsin : Real.sin ((90 : ℝ) * Real.pi / 180) = 1 := by
    rw [show (90 : ℝ) * Real.pi / 180 = Real.pi / 2 by ring, Real.sin_pi_div_two]
  have hcos : Real.cos ((90 : ℝ) * Real.pi / 180) = 0 := by
    rw [show (90 : ℝ) * Real.pi / 180 = Real.pi / 2 by ring, Real.cos_pi_div_two]
  refine ⟨?_, ?_, ?_⟩
  · intro dirs zones dist u
    rw [samplesForNode]
    congr 1
    apply List.flatMap_congr
    intro d _
    apply List.map_congr_left
    intro z _
    simp only [SampleRow.mk.injEq, eq_self_iff_true, and_true, true_and]
    exact ⟨by ring, by ring⟩
  · simp [samplesForNode, hsin, hcos, add_comm, List.range_succ,
      List.flatMap_cons, List.flatMap_nil, List.getD_cons_zero]
  · simp [samplesForNode, Real.sin_zero, Real.cos_zero, add_comm,
      List.range_succ, List.flatMap_cons, List.flatMap_nil,
      List.getD_cons_zero]

/-- C6: with transect_count 4, zone_count 2, include_stream_sample true,
legacy directions off and data kind Codes, the Schema Generator produces
exactly the 17 field names LC_T0_S0, LC_T1_S1 .. LC_T4_S2, ELE_T1_S1 ..
ELE_T4_S2 in this order (no ELE emergent field), and the geometry generator
produces exactly 9 SamplePoints for a single node: 1 emergent plus 8
non-emergent.  The sample counts do not depend on the trigonometric routines,
which are instantiated with stub functions here. -/
theorem C6_scenario :
    SetupLCDataHeaders 2 4 "Codes" true false =
      some ["LC_T0_S0", "LC_T1_S1", "LC_T1_S2", "LC_T2_S1", "LC_T2_S2",
            "LC_T3_S1", "LC_T3_S2", "LC_T4_S1", "LC_T4_S2",
            "ELE_T1_S1", "ELE_T1_S2", "ELE_T2_S1", "ELE_T2_S2",
            "ELE_T3_S1", "ELE_T3_S2", "ELE_T4_S1", "ELE_T4_S2"] ∧
    ((SetupLCDataHeaders 2 4 "Codes" true false).getD []).length = 17 ∧
    (samplesForNode ℚ (fun _ => 0) (fun _ => 0) (mainDirs false 4)
        (zonesList 2) 10 1 1 ⟨1, 1000, 1000, 1⟩).length = 9 ∧
    ((samplesForNode ℚ (fun _ => 0) (fun _ => 0) (mainDirs false 4)
        (zonesList 2) 10 1 1 ⟨1, 1000, 1000, 1⟩).filter isEmergent).length
      = 1 ∧
    ((samplesForNode ℚ (fun _ => 0) (fun _ => 0) (mainDirs false 4)
        (zonesList 2) 10 1 1 ⟨1, 1000, 1000, 1⟩).filter
        (fun r => ! isEmergent r)).length = 8 := by
  refine ⟨by decide, by decide, by decide, by decide, by decide⟩

/-- C8 failing input: in legacy (heatsource8) mode the Schema Generator emits
headers such as LC_NE_S1 built from the compass labels, while the aggregation
loop always builds its dictionary keys from the numeric transect position
(LC_T1_S1, ..).  The schema field LC_NE_S1 is therefore never assigned by the
aggregation, although the emergent field LC_T0_S0 and the numeric keys are.
Configuration: data kind Codes, heatsource8 true, include_stream_sample true,
zone_count 1, one node. -/
theorem C8_legacy_field_unassigned :
    "LC_NE_S1" ∈ (SetupLCDataHeaders 1 8 "Codes" true true).getD [] ∧
    "LC_NE_S1" ∉ aggKeys ((lcTypes "Codes").getD [])
      (samplesForNode ℚ (fun _ => 0) (fun _ => 0) (mainDirs true 8)
        (zonesList 1) 8 1 0 ⟨1, 0, 0, 1⟩) ∧
    "LC_T0_S0" ∈ aggKeys ((lcTypes "Codes").getD [])
      (samplesForNode ℚ (fun _ => 0) (fun _ => 0) (mainDirs true 8)
        (zonesList 1) 8 1 0 ⟨1, 0, 0, 1⟩) ∧
    "LC_T1_S1" ∈ aggKeys ((lcTypes "Codes").getD [])
      (samplesForNode ℚ (fun _ => 0) (fun _ => 0) (mainDirs true 8)
        (zonesList 1) 8 1 0 ⟨1, 0, 0, 1⟩) := by
  refine ⟨by decide, by decide, by decide, by decide⟩

lemma LCloop_chunks {α : Type} (sfn : NodeRec α → List (SampleRow α)) :
    ∀ (rest : List (NodeRec α)) (acc : List (List (SampleRow α)))
      (cur : List (SampleRow α)) (i : ℕ) (bs : List (List (SampleRow α)))
      (chA : List (List (NodeRec α))) (cpre : List (NodeRec α)),
      LCloop sfn rest acc cur i = some bs →
      acc = chA.map (fun c => c.flatMap sfn) →
      cur = cpre.flatMap sfn →
      ∃ chunks : List (List (NodeRec α)),
        chunks.flatten = chA.flatten ++ cpre ++ rest ∧
        bs = chunks.map (fun c => c.flatMap sfn) := by
  intro rest
  induction rest with
  | nil =>
    intro acc cur i bs chA cpre hloop hacc hcur
    refine ⟨chA ++ [cpre], ?_, ?_⟩
    · simp
    · simp only [LCloop, Option.some.injEq] at hloop
      subst hloop hacc hcur
      simp
  | cons node rest ih =>
    intro acc cur i bs chA cpre hloop hacc hcur
    rw [LCloop] at hloop
    split at hloop
    · exact absurd hloop (by simp)
    · split at hloop
      · obtain ⟨chunks, h1, h2⟩ :=
          ih acc (cur ++ sfn node) i bs chA (cpre ++ [node]) hloop hacc
            (by simp [hcur])
        exact ⟨chunks, by simpa using h1, h2⟩
      · obtain ⟨chunks, h1, h2⟩ :=
          ih (acc ++ [cur]) (sfn node) (i + 1) bs (chA ++ [cpre]) [node] hloop
            (by simp [hacc, hcur]) (by simp)
        exact ⟨chunks, by simpa using h1, h2⟩

lemma flatten_map_flatMap {α β : Type} (sfn : α → List β) :
    ∀ chunks : List (List α),
      (chunks.map (fun c => c.flatMap sfn)).flatten = chunks.flatten.flatMap sfn
  | [] => by simp
  | c :: cs => by simp [flatten_map_flatMap sfn cs]

/-- C3: whenever the block-partitioned generation succeeds, the produced
blocks are exactly the per-node sample lists of a partition of the node
sequence into consecutive chunks: concatenating all blocks in order yields
precisely the sequence that ungrouped generation over the same nodes in the
same order would produce, no sample is dropped, duplicated or reordered, and
the samples of one node all lie inside a single block. -/
theorem C3_block_refinement (α : Type) [CommRing α] (sinD cosD : ℚ → α)
    (nodes : List (NodeRec α)) (streamID : ℤ) (dirs : List ℚ)
    (zones : List ℕ) (dist con : α) (bs : List (List (SampleRow α)))
    (h : CreateLCPointList α sinD cosD nodes streamID dirs zones dist con =
      some bs) :
    ∃ chunks : List (List (NodeRec α)),
      chunks.flatten = nodes ∧
      bs = chunks.map (fun c =>
        c.flatMap (samplesForNode α sinD cosD dirs zones dist con streamID)) ∧
      bs.flatten =
        nodes.flatMap (samplesForNode α sinD cosD dirs zones dist con streamID) := by
  obtain ⟨chunks, h1, h2⟩ :=
    LCloop_chunks (samplesForNode α sinD cosD dirs zones dist con streamID)
      nodes [] [] 0 bs [] [] h (by simp) (by simp)
  have hn : chunks.flatten = nodes := by simpa using h1
  refine ⟨chunks, hn, h2, ?_⟩
  rw [h2, flatten_map_flatMap, hn]

set_option maxRecDepth 8000 in
/-- Witness for C3: one concrete node below the first checkpoint, evaluated
with stub trigonometric routines; the single produced block carries the
emergent row followed by the transect row. -/
theorem C3_block_refinement_witness :
    ∃ chunks : List (List (NodeRec ℚ)),
      chunks.flatten = [⟨1, 5, 7, 1⟩] ∧
      [samplesForNode ℚ (fun _ => 0) (fun _ => 0) [360] [1] 0 0 3 ⟨1, 5, 7, 1⟩] =
        chunks.map (fun c =>
          c.flatMap (samplesForNode ℚ (fun _ => 0) (fun _ => 0) [360] [1] 0 0 3)) ∧
      ([samplesForNode ℚ (fun _ => 0) (fun _ => 0) [360] [1] 0 0 3 ⟨1, 5, 7, 1⟩] :
          List (List (SampleRow ℚ))).flatten =
        ([⟨1, 5, 7, 1⟩] : List (NodeRec ℚ)).flatMap
          (samplesForNode ℚ (fun _ => 0) (fun _ => 0) [360] [1] 0 0 3) :=
  C3_block_refinement ℚ (fun _ => 0) (fun _ => 0) [⟨1, 5, 7, 1⟩] 3 [360] [1]
    0 0 _ rfl

lemma foldl_min_le_init (t : List ℚ) : ∀ a : ℚ, t.foldl min a ≤ a := by
  induction t with
  | nil => intro a; simp
  | cons b t ih =>
    intro a
    calc (b :: t).foldl min a = t.foldl min (min a b) := rfl
    _ ≤ min a b := ih (min a b)
    _ ≤ a := min_le_left a b

lemma foldl_min_le_mem (t : List ℚ) :
    ∀ (a x : ℚ), x ∈ t → t.foldl min a ≤ x := by
  induction t with
  | nil => intro a x hx; cases hx
  | cons b t ih =>
    intro a x hx
    rcases List.mem_cons.mp hx with hx | hx
    · subst hx
      calc (x :: t).foldl min a = t.foldl min (min a x) := rfl
      _ ≤ min a x := foldl_min_le_init t (min a x)
      _ ≤ x := min_le_right a x
    · exact ih (min a b) x hx

lemma listMin_le {l : List ℚ} {x : ℚ} (hx : x ∈ l) : listMin l ≤ x := by
  cases l with
  | nil => cases hx
  | cons a t =>
    rcases List.mem_cons.mp hx with hx | hx
    · subst hx; exact foldl_min_le_init t x
    · exact foldl_min_le_mem t a x hx

lemma init_le_foldl_max (t : List ℚ) : ∀ a : ℚ, a ≤ t.foldl max a := by
  induction t with
  | nil => intro a; simp
  | cons b t ih =>
    intro a
    calc a ≤ max a b := le_max_left a b
    _ ≤ t.foldl max (max a b) := ih (max a b)
    _ = (b :: t).foldl max a := rfl

lemma mem_le_foldl_max (t : List ℚ) :
    ∀ (a x : ℚ), x ∈ t → x ≤ t.foldl max a := by
  induction t with
  | nil => intro a x hx; cases hx
  | cons b t ih =>
    intro a x hx
    rcases List.mem_cons.mp hx with hx | hx
    · subst hx
      calc x ≤ max a x := le_max_right a x
      _ ≤ t.foldl max (max a x) := init_le_foldl_max t (max a x)
      _ = (x :: t).foldl max a := rfl
    · exact ih (max a b) x hx

lemma le_listMax {l : List ℚ} {x : ℚ} (hx : x ∈ l) : x ≤ listMax l := by
  cases l with
  | nil => cases hx
  | cons a t =>
    rcases List.mem_cons.mp hx with hx | hx
    · subst hx; exact init_le_foldl_max t x
    · exact mem_le_foldl_max t a x hx

lemma npTrunc_eq_floor (q : ℚ) (hq : 0 ≤ q) : npTrunc q = ⌊q⌋ := by
  rw [npTrunc, Rat.floor_def]
  exact Int.tdiv_eq_ediv (Rat.num_nonneg.mpr hq) (Int.ofNat_nonneg q.den)

/-- C4: for every SamplePoint of a block, with the window origin derived as
(minimum easting, maximum northing) of the block, the Raster Window Sampler
reads the array value at column floor((x - origin.x) / cellsizeX) and row
floor((origin.y - y) / cellsizeY).  The truncation the array indexing applies
agrees with the floor because a block member never lies left of the minimum
easting or above the maximum northing. -/
theorem C4_coord_to_index (block : List (SampleRow ℚ))
    (cellsizeX cellsizeY : ℚ) (hcx : 0 < cellsizeX) (hcy : 0 < cellsizeY)
    (r : SampleRow ℚ) (hr : r ∈ block) :
    sampleIndex r.x r.y (bboxUpperLeft block cellsizeX cellsizeY) =
      (⌊((bboxUpperLeft block cellsizeX cellsizeY).ymax - r.y) / cellsizeY⌋,
       ⌊(r.x - (bboxUpperLeft block cellsizeX cellsizeY).xmin) / cellsizeX⌋) := by
  have hxmin : (bboxUpperLeft block cellsizeX cellsizeY).xmin ≤ r.x := by
    simp only [bboxUpperLeft, mul_zero, sub_zero]
    exact listMin_le (List.mem_map.mpr ⟨r, hr, rfl⟩)
  have hymax : r.y ≤ (bboxUpperLeft block cellsizeX cellsizeY).ymax := by
    simp only [bboxUpperLeft, mul_zero, add_zero]
    exact le_listMax (List.mem_map.mpr ⟨r, hr, rfl⟩)
  have hcol : 0 ≤ (r.x - (bboxUpperLeft block cellsizeX cellsizeY).xmin) /
      cellsizeX :=
    div_nonneg (by linarith) (le_of_lt hcx)
  have hrow : 0 ≤ ((bboxUpperLeft block cellsizeX cellsizeY).ymax - r.y) /
      cellsizeY :=
    div_nonneg (by linarith) (le_of_lt hcy)
  rw [sampleIndex, CoordToArray]
  simp only [bboxUpperLeft, mul_zero, sub_zero, add_zero] at hcol hrow ⊢
  rw [npTrunc_eq_floor _ hrow, npTrunc_eq_floor _ hcol]

/-- Witness for C4 at a concrete two-sample block with cell sizes 2 and 1. -/
theorem C4_coord_to_index_witness :
    sampleIndex rowA.x rowA.y (bboxUpperLeft [rowA, rowB] 2 1) =
      (⌊((bboxUpperLeft [rowA, rowB] 2 1).ymax - rowA.y) / 1⌋,
       ⌊(rowA.x - (bboxUpperLeft [rowA, rowB] 2 1).xmin) / 2⌋) :=
  C4_coord_to_index [rowA, rowB] 2 1 (by norm_num) (by norm_num) rowA
    (List.mem_cons_self _ _)

/-- C7 (amended): the Raster Window Sampler derives the bounding box of the
block padded by the buffer cellsizeX * 0, takes (minimum easting, maximum
northing) as the upper-left origin, and requests
ncols = (xmax - xmin) / cellsizeX + 1 and nrows = (ymax - ymin) / cellsizeY + 1
cells; no ceiling is applied in the source, so the requested counts equal
ceil((xmax - xmin) / cellsizeX) + 1 and ceil((ymax - ymin) / cellsizeY) + 1
exactly when the corresponding extent is an integer multiple of the cell
size. -/
theorem C7_window_request (block : List (SampleRow ℚ))
    (cellsizeX cellsizeY conZ : ℚ) (hcx : cellsizeX ≠ 0)
    (hcy : cellsizeY ≠ 0) :
    (bboxUpperLeft block cellsizeX cellsizeY).xmin =
      listMin (block.map (fun r => r.x)) ∧
    (bboxUpperLeft block cellsizeX cellsizeY).ymax =
      listMax (block.map (fun r => r.y)) ∧
    (windowRequest block cellsizeX cellsizeY conZ).ncols =
      (listMax (block.map (fun r => r.x)) -
        listMin (block.map (fun r => r.x))) / cellsizeX + 1 ∧
    (windowRequest block cellsizeX cellsizeY conZ).nrows =
      (listMax (block.map (fun r => r.y)) -
        listMin (block.map (fun r => r.y))) / cellsizeY + 1 ∧
    (∀ k : ℤ,
      listMax (block.map (fun r => r.x)) -
          listMin (block.map (fun r => r.x)) = k * cellsizeX →
      (windowRequest block cellsizeX cellsizeY conZ).ncols =
        (⌈(listMax (block.map (fun r => r.x)) -
            listMin (block.map (fun r => r.x))) / cellsizeX⌉ : ℚ) + 1) ∧
    (∀ k : ℤ,
      listMax (block.map (fun r => r.y)) -
          listMin (block.map (fun r => r.y)) = k * cellsizeY →
      (windowRequest block cellsizeX cellsizeY conZ).nrows =
        (⌈(listMax (block.map (fun r => r.y)) -
            listMin (block.map (fun r => r.y))) / cellsizeY⌉ : ℚ) + 1) := by
  refine ⟨by simp [bboxUpperLeft], by simp [bboxUpperLeft],
    by simp [windowRequest], by simp [windowRequest], ?_, ?_⟩
  · intro k hk
    have hq : (listMax (block.map (fun r => r.x)) -
        listMin (block.map (fun r => r.x))) / cellsizeX = (k : ℚ) := by
      rw [hk]
      exact mul_div_cancel_right₀ _ hcx
    simp [windowRequest, hq]
  · intro k hk
    have hq : (listMax (block.map (fun r => r.y)) -
        listMin (block.map (fun r => r.y))) / cellsizeY = (k : ℚ) := by
      rw [hk]
      exact mul_div_cancel_right₀ _ hcy
    simp [windowRequest, hq]

/-- Witness for C7 at the concrete one-row block with cell sizes 2 and 1. -/
theorem C7_window_request_witness :
    (bboxUpperLeft [rowA] 2 1).xmin = listMin ([rowA].map (fun r => r.x)) ∧
    (bboxUpperLeft [rowA] 2 1).ymax = listMax ([rowA].map (fun r => r.y)) ∧
    (windowRequest [rowA] 2 1 1).ncols =
      (listMax ([rowA].map (fun r => r.x)) -
        listMin ([rowA].map (fun r => r.x))) / 2 + 1 ∧
    (windowRequest [rowA] 2 1 1).nrows =
      (listMax ([rowA].map (fun r => r.y)) -
        listMin ([rowA].map (fun r => r.y))) / 1 + 1 ∧
    (∀ k : ℤ,
      listMax ([rowA].map (fun r => r.x)) -
          listMin ([rowA].map (fun r => r.x)) = k * 2 →
      (windowRequest [rowA] 2 1 1).ncols =
        (⌈(listMax ([rowA].map (fun r => r.x)) -
            listMin ([rowA].map (fun r => r.x))) / 2⌉ : ℚ) + 1) ∧
    (∀ k : ℤ,
      listMax ([rowA].map (fun r => r.y)) -
          listMin ([rowA].map (fun r => r.y)) = k * 1 →
      (windowRequest [rowA] 2 1 1).nrows =
        (⌈(listMax ([rowA].map (fun r => r.y)) -
            listMin ([rowA].map (fun r => r.y))) / 1⌉ : ℚ) + 1) :=
  C7_window_request [rowA] 2 1 1 (by norm_num) (by norm_num)

/-- C7 counterexample: for the block holding samples at eastings 0 and 1 with
cell size 2 in x, the source requests ncols = (1 - 0) / 2 + 1 = 3 / 2
columns, while the claimed formula ceil((xmax - xmin) / cellsizeX) + 1
gives 2. -/
theorem C7_counterexample :
    (windowRequest [rowO, rowX] 2 1 1).ncols = 3 / 2 ∧
    ((⌈((1 : ℚ) - 0) / 2⌉ : ℤ) : ℚ) + 1 = 2 ∧
    (3 / 2 : ℚ) ≠ 2 := by
  refine ⟨?_, ?_, by norm_num⟩
  · simp [windowRequest, listMin, listMax, rowO, rowX, min_def, max_def]
    norm_num
  · have h : ⌈((1 : ℚ) - 0) / 2⌉ = 1 := by
      rw [Int.ceil_eq_iff]
      norm_num
    rw [h]
    norm_num

/-- C1 failing input: the nodata replacement value is always
-9999 / con_z_to_m, using the global elevation conversion factor, while the
array is multiplied by the per-raster factor con.  With elevation units Feet
(con_z_to_m = 0.3048) a nodata cell of a non-elevation raster (con = 1.0)
therefore reads back as -9999 / 0.3048 = -4166250 / 127, not as -9999; the
round trip holds for the elevation raster itself and when con_z_to_m is 1. -/
theorem C1_nodata_not_roundtrip :
    convertedCell (0.3048 : ℚ) (rasterCon "LC" "ELE" (0.3048 : ℚ)) none =
      -4166250 / 127 ∧
    (-4166250 / 127 : ℚ) ≠ -9999 ∧
    convertedCell (0.3048 : ℚ) (rasterCon "ELE" "ELE" (0.3048 : ℚ)) none =
      -9999 ∧
    convertedCell 1 (rasterCon "LC" "ELE" 1) none = -9999 ∧
    SampleRaster [rowO] 1 1 (0.3048 : ℚ) (rasterCon "LC" "ELE" (0.3048 : ℚ))
        (fun _ => none) =
      [(rowO, -4166250 / 127)] := by
  have hLC : rasterCon "LC" "ELE" (0.3048 : ℚ) = 1 := by
    rw [rasterCon, if_neg (by decide)]
  have hELE : rasterCon "ELE" "ELE" (0.3048 : ℚ) = (0.3048 : ℚ) := by
    rw [rasterCon, if_pos rfl]
  have hLC1 : rasterCon "LC" "ELE" (1 : ℚ) = 1 := by
    rw [rasterCon, if_neg (by decide)]
  refine ⟨?_, by norm_num, ?_, ?_, ?_⟩
  · rw [hLC, convertedCell, materializeCell]
    norm_num
  · rw [hELE, convertedCell, materializeCell]
    norm_num
  · rw [hLC1, convertedCell, materializeCell]
    norm_num
  · rw [SampleRaster, hLC]
    simp only [List.map_cons, List.map_nil, convertedCell, materializeCell]
    norm_num

/-- C9 counterexample: an elevation unit name other than Meters, Feet or the
literal Other (here Yards) matches no branch of the unit selection: the
program does not raise the explicit unsupported-unit abort, it leaves the
conversion factor undefined. -/
theorem C9_counterexample :
    conZtoM "Yards" = EleCon.unset ∧ EleCon.unset ≠ EleCon.exitOther := by
  exact ⟨rfl, by decide⟩

/-- C9 (amended): the elevation unit conversion maps Meters to factor 1 and
Feet to factor 0.3048; exactly the literal unit name Other triggers the
explicit unsupported-unit abort (before any sampling), and every other value
leaves the conversion factor unset, so the run only fails later with a
NameError during sampling. -/
theorem C9_ele_units :
    conZtoM "Meters" = EleCon.factor 1 ∧
    conZtoM "Feet" = EleCon.factor (0.3048 : ℚ) ∧
    conZtoM "Other" = EleCon.exitOther ∧
    (∀ u : String, u ≠ "Meters" → u ≠ "Feet" → u ≠ "Other" →
      conZtoM u = EleCon.unset) := by
  refine ⟨rfl, rfl, rfl, ?_⟩
  intro u h1 h2 h3
  rw [conZtoM, if_neg h1, if_neg h2, if_neg h3]

/-- Witness for C9 at the concrete unit name Yards. -/
theorem C9_ele_units_witness : conZtoM "Yards" = EleCon.unset :=
  C9_ele_units.2.2.2 "Yards" (by decide) (by decide) (by decide)

/-- C10: with overwriting disabled and the last generated field name present
in the node source, ReadNodesFC yields exactly the rows whose stored value
for that single field is null or equal to 0 (a stored 0 is treated as
missing and re-processed); when the last field is absent, overwrite mode is
silently re-enabled and every row is yielded. -/
theorem C10_read_nodes_filter (rows : List NodeRow)
    (addFields existingFields : List String) :
    (addFields.getLastD "" ∈ existingFields →
      rows.filter (fun r =>
        r.lastFieldValue == none || r.lastFieldValue == some 0) ≠ [] →
      ReadNodesFC rows false addFields existingFields =
        some (rows.filter (fun r =>
          r.lastFieldValue == none || r.lastFieldValue == some 0))) ∧
    (addFields.getLastD "" ∉ existingFields →
      rows ≠ [] →
      ReadNodesFC rows false addFields existingFields = some rows) := by
  constructor
  · intro hmem hne
    have h2 : ((rows.filter (fun r =>
        r.lastFieldValue == none || r.lastFieldValue == some 0)).isEmpty)
        = false := List.isEmpty_eq_false.mpr hne
    simp only [ReadNodesFC]
    rw [if_pos (show True ∧ addFields.getLastD "" ∈ existingFields from
      ⟨trivial, hmem⟩)]
    rw [if_neg (by decide : ¬((false : Bool) = true))]
    rw [if_neg (by simp [h2])]
  · intro hmem hne
    have h2 : rows.isEmpty = false := List.isEmpty_eq_false.mpr hne
    simp only [ReadNodesFC]
    rw [if_neg (show ¬(True ∧ addFields.getLastD "" ∈ existingFields) from
      fun hand => hmem hand.2)]
    rw [if_pos rfl]
    rw [if_neg (by simp [h2])]

/-- Witness for C10: three concrete rows with stored values null, 0 and 7;
with the last schema field present only the null and 0 rows are yielded, and
with it absent all three are yielded. -/
theorem C10_read_nodes_filter_witness :
    ReadNodesFC [nrowNull, nrowZero, nrowSeven] false
        ["LC_T0_S0", "ELE_T4_S2"] ["NODE_ID", "ELE_T4_S2"] =
      some ([nrowNull, nrowZero, nrowSeven].filter (fun r =>
        r.lastFieldValue == none || r.lastFieldValue == some 0)) ∧
    ReadNodesFC [nrowNull, nrowZero, nrowSeven] false
        ["LC_T0_S0", "ELE_T4_S2"] ["NODE_ID"] =
      some [nrowNull, nrowZero, nrowSeven] :=
  ⟨(C10_read_nodes_filter [nrowNull, nrowZero, nrowSeven]
      ["LC_T0_S0", "ELE_T4_S2"] ["NODE_ID", "ELE_T4_S2"]).1
      (by decide) (by decide),
   (C10_read_nodes_filter [nrowNull, nrowZero, nrowSeven]
      ["LC_T0_S0", "ELE_T4_S2"] ["NODE_ID"]).2 (by decide) (by decide)⟩
